import Mathlib

/-!
Verification development for the mudpy Telnet protocol engine
(`src/mudpy/portal/telnet.py`).

Bytes are modelled as `Nat` values (every comparison in the source is
against a constant below 256, so no width arithmetic is needed).  Python
byte strings become `List Nat`, Python strings become Lean `String`.
Stateful methods become pure functions returning the mutated state
together with their observable effects (queued outbound messages,
capability deltas, settled signals).
-/

namespace Mudpy

/-- The numeric Telnet opcodes from `class TelnetCode` in the source. -/
def TelnetCode.SE : Nat := 240

def TelnetCode.SB : Nat := 250

def TelnetCode.WILL : Nat := 251

def TelnetCode.WONT : Nat := 252

def TelnetCode.DO : Nat := 253

def TelnetCode.DONT : Nat := 254

def TelnetCode.IAC : Nat := 255

def TelnetCode.MCCP3 : Nat := 87

/-- The four typed Telnet messages of the codec: `TelnetData`,
`TelnetCommand`, `TelnetNegotiate`, `TelnetSubNegotiate`. -/
inductive TelnetMsg where
  | data (b : List Nat)
  | command (c : Nat)
  | negotiate (command option : Nat)
  | subnegotiate (option : Nat) (payload : List Nat)
deriving DecidableEq, Repr

/-- `TelnetData.__bytes__`: returns `self.data` verbatim (no IAC doubling). -/
def telnetData_bytes (data : List Nat) : List Nat := data

/-- `TelnetCommand.__bytes__`: `IAC c`. -/
def telnetCommand_bytes (command : Nat) : List Nat := [TelnetCode.IAC, command]

/-- `TelnetNegotiate.__bytes__`: `IAC cmd opt`. -/
def telnetNegotiate_bytes (command option : Nat) : List Nat :=
  [TelnetCode.IAC, command, option]

/-- `TelnetSubNegotiate.__bytes__`: `IAC SB opt payload IAC SE`. -/
def telnetSubNegotiate_bytes (option : Nat) (data : List Nat) : List Nat :=
  [TelnetCode.IAC, TelnetCode.SB, option] ++ data ++ [TelnetCode.IAC, TelnetCode.SE]

/-- `scan_until_IAC`: index of the first IAC byte, or the length if none. -/
def scan_until_IAC : List Nat → Nat
  | [] => 0
  | c :: rest => if c = 255 then 0 else 1 + scan_until_IAC rest

/-- The loop of `scan_until_IAC_SE`, carrying the current index `i`.
The Python loop runs while `i < len(data) - 1`, i.e. while at least two
bytes remain from position `i`; the two leading list elements here are
`data[i]` and `data[i+1]`.  Returns `some (i+2)` for the first unescaped
`IAC SE`, skipping `IAC IAC` pairs, or `none` (the source returns `-1`). -/
def scanSE_go : List Nat → Nat → Option Nat
  | [], _ => none
  | [_], _ => none
  | a :: b :: rest, i =>
    if a = 255 then
      -- a is IAC
      if b = 240 then some (i + 2)        -- IAC SE: end found
      else if b = 255 then scanSE_go rest (i + 2)  -- IAC IAC: skip both
      else scanSE_go (b :: rest) (i + 1)
    else scanSE_go (b :: rest) (i + 1)

/-- `scan_until_IAC_SE` scans the whole buffer starting at index 0. -/
def scan_until_IAC_SE (data : List Nat) : Option Nat := scanSE_go data 0

/-- `parse_telnet`: one decoding step over the read buffer.  Returns the
number of bytes to advance by and an optional message (`none` models the
`(0, None)` incomplete result). -/
def parse_telnet (data : List Nat) : Nat × Option TelnetMsg :=
  match data with
  | [] => (0, none)
  | b0 :: rest =>
    if b0 = 255 then
      -- IAC
      match rest with
      | [] => (0, none)
      | b1 :: rest2 =>
        if b1 = 255 then
          -- escaped IAC: `return 2, TelnetData(data[:1])`
          (2, some (.data [b0]))
        else if b1 = 251 ∨ b1 = 252 ∨ b1 = 253 ∨ b1 = 254 then
          -- WILL, WONT, DO, DONT
          match rest2 with
          | [] => (0, none)
          | b2 :: _ => (3, some (.negotiate b1 b2))
        else if b1 = 250 then
          -- SB
          match scan_until_IAC_SE data with
          | none => (0, none)
          | some length =>
            if length < 5 then (0, none)
            else (length, some (.subnegotiate (data[2]!) ((data.take (length - 2)).drop 3)))
        else (2, some (.command b1))
    else
      -- `length = scan_until_IAC(data); return length, TelnetData(data[:length])`
      (scan_until_IAC data, some (.data (data.take (scan_until_IAC data))))

/-- One run of the ingest loop in `_tn_at_receive_raw_data`: repeatedly
parse the buffer and drop the advanced bytes while a message is produced.
Each successful parse advances by at least one byte, so `b.length` steps
of fuel always suffice. -/
def decodeAllFuel : Nat → List Nat → List TelnetMsg
  | 0, _ => []
  | fuel + 1, b =>
    match parse_telnet b with
    | (_, none) => []
    | (n, some m) => m :: decodeAllFuel fuel (b.drop n)

/-- All messages produced by running the decoder repeatedly with
advance-consumption over a buffer. -/
def decodeAll (b : List Nat) : List TelnetMsg := decodeAllFuel b.length b

/-! ## Output normalizer (`ensure_crlf`) -/

/-- The IAC byte as a character: `iac = chr(255)` in the source. -/
def iacChar : Char := Char.ofNat 255

/-- The loop body of `ensure_crlf`, carrying the `prev_char_is_cr` flag
and returning the characters appended to `result`. -/
def ensure_crlf_go : Bool → List Char → List Char
  | _, [] => []
  | prev, c :: rest =>
    if c = Char.ofNat 13 then
      -- CR: only emitted when the previous character was not a CR
      (if prev then [] else [Char.ofNat 13]) ++ ensure_crlf_go true rest
    else if c = Char.ofNat 10 then
      -- LF: a CR is inserted first unless one was just seen
      (if prev then [Char.ofNat 10] else [Char.ofNat 13, Char.ofNat 10]) ++
        ensure_crlf_go false rest
    else if c = iacChar then
      c :: c :: ensure_crlf_go false rest
    else
      c :: ensure_crlf_go false rest

/-- `ensure_crlf(input_str)`: CRLF canonicalization plus IAC doubling,
as a pure function over the characters of the string. -/
def ensure_crlf (input_str : String) : String :=
  String.mk (ensure_crlf_go false input_str.data)

/-! The claim-side description of the normalizer (spec section 4.G): each
`\n` becomes `\r\n` with a missing `\r` inserted and a duplicate one
suppressed, a run of consecutive `\r` collapses to a single `\r` (joined
to a following `\n` when present), `0xFF` characters are doubled, and all
other characters pass through verbatim. -/

mutual

/-- Claim-side normalizer, outside a carriage-return run. -/
def claimNormalize : List Char → List Char
  | [] => []
  | c :: rest =>
    if c = Char.ofNat 13 then claimNormalizeCR rest
    else if c = Char.ofNat 10 then Char.ofNat 13 :: Char.ofNat 10 :: claimNormalize rest
    else if c = iacChar then c :: c :: claimNormalize rest
    else c :: claimNormalize rest

/-- Claim-side normalizer after one or more `\r` have been read: further
`\r` in the run are suppressed; a following `\n` yields exactly `\r\n`; any
other continuation preserves the lone `\r` once. -/
def claimNormalizeCR : List Char → List Char
  | [] => [Char.ofNat 13]
  | c :: rest =>
    if c = Char.ofNat 13 then claimNormalizeCR rest
    else if c = Char.ofNat 10 then Char.ofNat 13 :: Char.ofNat 10 :: claimNormalize rest
    else if c = iacChar then Char.ofNat 13 :: c :: c :: claimNormalize rest
    else Char.ofNat 13 :: c :: claimNormalize rest

end

/-- Scanner for the claim's positional property, tracking the previous
character: every `\n` must be directly preceded by a `\r`, and no `\r` may
directly follow another `\r` (so each `\n` is preceded by exactly one). -/
def okOutAux : Option Char → List Char → Bool
  | _, [] => true
  | p, c :: rest =>
    (if c = Char.ofNat 10 then p == some (Char.ofNat 13) else true) &&
    (if c = Char.ofNat 13 then p != some (Char.ofNat 13) else true) &&
    okOutAux (some c) rest

/-- Positional property of an output string: every `\n` is preceded by
exactly one `\r`, and consecutive `\r` never occur. -/
def okOut (l : List Char) : Bool := okOutAux none l

/-! ## Option negotiation (`TelnetOption.at_receive_negotiate`) -/

/-- `TelnetOptionState`: one negotiation half-state. -/
structure TelnetOptionState where
  enabled : Bool := false
  negotiating : Bool := false
deriving DecidableEq, Repr

/-- `TelnetOptionPerspective`: the local and remote half-states of one
option instance (`local` is a Lean keyword, hence `local'`). -/
structure TelnetOptionPerspective where
  local' : TelnetOptionState := {}
  remote : TelnetOptionState := {}
deriving DecidableEq, Repr

/-- The callbacks an inbound negotiation can fire. -/
inductive OptionCallback where
  | local_enable
  | local_disable
  | local_reject
  | remote_enable
  | remote_disable
  | remote_reject
deriving DecidableEq, Repr

/-- `TelnetOption.at_receive_negotiate`, as a pure transition: given the
option's static `support_local` / `support_remote` flags, the current
half-states, and the received negotiation command byte, it returns the new
half-states, the command bytes of the `Negotiate` replies enqueued (each
reply carries this option's code), and the callbacks invoked, in order. -/
def TelnetOption.at_receive_negotiate (support_local support_remote : Bool)
    (st : TelnetOptionPerspective) (command : Nat) :
    TelnetOptionPerspective × List Nat × List OptionCallback :=
  if command = TelnetCode.WILL then
    if support_remote then
      if st.remote.enabled = false then
        ({ st with remote := { st.remote with enabled := true } },
         (if st.remote.negotiating = false then [TelnetCode.DO] else []),
         [.remote_enable])
      else (st, [], [])
    else (st, [TelnetCode.DONT], [])
  else if command = TelnetCode.DO then
    if support_local then
      if st.local'.enabled = false then
        ({ st with local' := { st.local' with enabled := true } },
         (if st.local'.negotiating = false then [TelnetCode.WILL] else []),
         [.local_enable])
      else (st, [], [])
    else (st, [TelnetCode.DONT], [])
  else if command = TelnetCode.WONT then
    if support_remote then
      let s1 := if st.remote.enabled then
          ({ st with remote := { st.remote with enabled := false } },
           [OptionCallback.remote_disable])
        else (st, [])
      let s2 := if s1.1.remote.negotiating then
          ({ s1.1 with remote := { s1.1.remote with negotiating := false } },
           [OptionCallback.remote_reject])
        else (s1.1, [])
      (s2.1, [], s1.2 ++ s2.2)
    else (st, [], [])
  else if command = TelnetCode.DONT then
    if support_local then
      let s1 := if st.local'.enabled then
          ({ st with local' := { st.local' with enabled := false } },
           [OptionCallback.local_disable])
        else (st, [])
      let s2 := if s1.1.local'.negotiating then
          ({ s1.1 with local' := { s1.1.local' with negotiating := false } },
           [OptionCallback.local_reject])
        else (s1.1, [])
      (s2.1, [], s1.2 ++ s2.2)
    else (st, [], [])
  else (st, [], [])

/-! ## Strings and bytes helpers -/

/-- UTF-8 encoding of one Unicode scalar value, as byte values. -/
def utf8EncodeCharNat (n : Nat) : List Nat :=
  if n < 0x80 then [n]
  else if n < 0x800 then [0xC0 + n / 0x40, 0x80 + n % 0x40]
  else if n < 0x10000 then
    [0xE0 + n / 0x1000, 0x80 + (n / 0x40) % 0x40, 0x80 + n % 0x40]
  else
    [0xF0 + n / 0x40000, 0x80 + (n / 0x1000) % 0x40, 0x80 + (n / 0x40) % 0x40,
     0x80 + n % 0x40]

/-- Python `str.encode()` (UTF-8). -/
def pyEncodeUtf8 (s : String) : List Nat :=
  s.data.foldr (fun c acc => utf8EncodeCharNat c.toNat ++ acc) []

/-- Byte values of an ASCII string (used to build concrete byte inputs). -/
def strToBytes (s : String) : List Nat := s.data.map Char.toNat

/-- Python `bytes.decode()` restricted to the ASCII payloads the MTTS
handlers receive: each byte below 0x80 is one character (UTF-8 and this
per-byte view agree on ASCII). -/
def bytesToStr (l : List Nat) : String := String.mk (l.map Char.ofNat)

/-- Python `s.upper()` for the ASCII client and terminal names compared
against in the source. -/
def pyUpper (s : String) : String := String.mk (s.data.map Char.toUpper)

/-- Python `s.endswith(suffix)`. -/
def pyEndsWith (s suffix : String) : Bool := List.isSuffixOf suffix.data s.data

/-- Python `s.startswith(pre)`. -/
def pyStartsWith (s p : String) : Bool := List.isPrefixOf p.data s.data

/-- Helper for Python `s.split(sep, 1)`: split the character list at the
first occurrence of `sep`, if any. -/
def splitFirstAux (sep : Char) : List Char → Option (List Char × List Char)
  | [] => none
  | c :: rest =>
    if c = sep then some ([], rest)
    else
      match splitFirstAux sep rest with
      | some (a, b) => some (c :: a, b)
      | none => none

/-- Python `s.split(sep, 1)` together with the `sep in s` test: returns the
part before the first separator and, when the separator occurs, the part
after it. -/
def splitFirst (sep : Char) (s : String) : String × Option String :=
  match splitFirstAux sep s.data with
  | some (a, b) => (String.mk a, some (String.mk b))
  | none => (s, none)

/-- Decimal digits to a number (`int(...)` on a digit string). -/
def digitsToNat (l : List Char) : Nat :=
  l.foldl (fun acc c => acc * 10 + (c.toNat - 48)) 0

/-- Models Python `int(...)` for the unsigned decimal digit strings an
MTTS bitfield reply carries; any other string raises `ValueError`, which
the source turns into an early return (`none` here).  Other accepted
Python spellings (signs, surrounding whitespace, underscores) are not
produced by the protocol and are not modelled. -/
def pyParseNat (s : String) : Option Nat :=
  if s.data ≠ [] ∧ s.data.all (fun c => c.isDigit) then some (digitsToNat s.data)
  else none

/-! ## Capabilities and MTTS -/

/-- `rich.color.ColorType`: the color system enumeration the source
compares and maxes over (an `IntEnum` with the listed values). -/
inductive ColorType where
  | default
  | standard
  | eight_bit
  | truecolor
  | windows
deriving DecidableEq, Repr

/-- The `IntEnum` value of a `ColorType`. -/
def ColorType.toNat : ColorType → Nat
  | .default => 0
  | .standard => 1
  | .eight_bit => 2
  | .truecolor => 3
  | .windows => 4

/-- Python `max` on two `ColorType`s (compares the enum values; the second
argument wins ties only when strictly greater, matching `max(a, b)`). -/
def ColorType.max (a b : ColorType) : ColorType :=
  if a.toNat < b.toNat then b else a

/-- A value stored in a capability delta dictionary. -/
inductive CapValue where
  | b (v : Bool)
  | s (v : String)
  | color (v : ColorType)
deriving DecidableEq, Repr

/-- A capability delta: the key/value pairs of the Python `dict` passed to
`change_capabilities`, in insertion order. -/
abbrev Delta := List (String × CapValue)

/-- Modelled from the spec: the per-session capability record lives in
`base_connection.py`, which is not among the given sources; only the
fields the MTTS handlers in `telnet.py` read are needed, and of those only
`color` is ever read (`capabilities.color`). -/
structure Capabilities where
  color : ColorType := .default
  vt100 : Bool := false
  mtts : Bool := false
  client_name : String := ""
  client_version : String := ""
  encoding : String := ""
deriving DecidableEq, Repr

/-- Embeds the comparison `max_color != self.protocol.capabilities` on the
final line of `MTTSOption.handle_ttype`: the source compares the
`ColorType` enum against the whole `Capabilities` record (not its `color`
field), and in Python an `IntEnum` is never equal to a non-integral
object, so the test is always true. -/
def colorNeqCapabilitiesRecord (_max_color : ColorType) (_caps : Capabilities) : Bool :=
  true

/-- `MTTSOption.handle_name`: derive client name/version and a color floor
from the first terminal-type reply; returns the delta passed to
`change_capabilities`. -/
def MTTS_handle_name (caps : Capabilities) (data : String) : Delta :=
  let p := splitFirst (Char.ofNat 32) data
  let client_name := p.1
  let client_version := p.2
  let out : Delta := [("client_name", .s client_name)]
  let out := match client_version with
    | some v => if v ≠ "" then out ++ [("client_version", .s v)] else out
    | none => out
  let max_color := ColorType.standard
  let cn := pyUpper client_name
  let max_color :=
    if cn = "ATLANTIS" ∨ cn = "CMUD" ∨ cn = "KILDCLIENT" ∨ cn = "MUDLET" ∨
       cn = "MUSHCLIENT" ∨ cn = "PUTTY" ∨ cn = "BEIP" ∨ cn = "POTATO" ∨
       cn = "TINYFUGUE" then
      ColorType.max max_color .eight_bit
    else if cn = "MUDLET" then
      -- dead branch: "MUDLET" is already matched by the previous case;
      -- kept to mirror the source's second `case "MUDLET"`
      match client_version with
      | some v => if pyStartsWith v "1.1" then ColorType.max max_color .eight_bit else max_color
      | none => max_color
    else max_color
  if max_color ≠ caps.color then out ++ [("color", .color max_color)] else out

/-- `MTTSOption.handle_ttype`: the terminal-type reply.  Returns `some
delta` when `change_capabilities` is called (the source only calls it when
the dict is non-empty) and `none` otherwise. -/
def MTTS_handle_ttype (caps : Capabilities) (data : String) : Option Delta :=
  let p := splitFirst (Char.ofNat 45) data
  let first := p.1
  let max_color := caps.color
  let max_color :=
    if max_color.toNat < ColorType.eight_bit.toNat then
      if pyEndsWith first "-256COLOR" ∨
         (pyEndsWith first "XTERM" ∧ ¬ pyEndsWith first "-COLOR") then
        ColorType.eight_bit
      else max_color
    else max_color
  let fu := pyUpper first
  let r : Delta × ColorType :=
    if fu = "DUMB" then ([], max_color)
    else if fu = "ANSI" then ([], max_color)
    else if fu = "VT100" then ([("vt100", .b true)], max_color)
    else if fu = "XTERM" then ([], ColorType.max max_color .eight_bit)
    else ([], max_color)
  let out := r.1
  let max_color := r.2
  let out :=
    if colorNeqCapabilitiesRecord max_color caps then
      out ++ [("color", .color max_color)]
    else out
  if out ≠ [] then some out else none

/-- The `MTTS` bit table of `MTTSOption`. -/
def MTTS_bits : List (Nat × String) :=
  [(2048, "encryption"), (1024, "mslp"), (512, "mnes"), (256, "truecolor"),
   (128, "proxy"), (64, "screenreader"), (32, "osc_color_palette"),
   (16, "mouse_tracking"), (8, "xterm256"), (4, "utf8"), (2, "vt100"),
   (1, "ansi")]

/-- `MTTSOption.handle_standard`: the MTTS bitfield reply.  Returns `some
delta` when `change_capabilities` is reached and `none` on either early
return.  The source iterates a Python set of capability names; the table
order is used here, which yields the same delta contents because each name
writes a distinct key and the color updates join through `max`. -/
def MTTS_handle_standard (caps : Capabilities) (data : String) : Option Delta :=
  if ¬ pyStartsWith data "MTTS " then none
  else
    match splitFirst (Char.ofNat 32) data with
    | (_, none) => none
    | (_, some num) =>
      match pyParseNat num with
      | none => none
      | some number =>
        let supported :=
          (MTTS_bits.filter (fun p => 0 < Nat.land number p.1)).map (fun p => p.2)
        let step : Delta × ColorType → String → Delta × ColorType := fun acc c =>
          if c = "truecolor" then (acc.1, ColorType.max .truecolor acc.2)
          else if c = "xterm256" then (acc.1, ColorType.max .eight_bit acc.2)
          else if c = "ansi" then (acc.1, ColorType.max .standard acc.2)
          else if c = "utf8" then (acc.1 ++ [("encoding", .s "utf-8")], acc.2)
          else (acc.1 ++ [(c, .b true)], acc.2)
        let r := supported.foldl step ([], caps.color)
        let out := if r.2 ≠ caps.color then r.1 ++ [("color", .color r.2)] else r.1
        some out

/-- The mutable fields of `MTTSOption`: the request counter and the
`last_received` string (which the source initializes to `""` and never
assigns again). -/
structure MTTSState where
  number_requests : Nat
  last_received : String
deriving DecidableEq, Repr

/-- The observable effects of one `MTTSOption.at_receive_subnegotiate`
call: whether `self.negotiation.set()` ran, the deltas passed to
`change_capabilities` (in order), and how many further MTTS requests
(`request()`, each sending `SubNegotiate(MTTS, [0x01])`) were issued. -/
structure MTTSEffects where
  settled : Bool
  deltas : List Delta
  requests : Nat
deriving DecidableEq, Repr

/-- `MTTSOption.at_receive_subnegotiate`: dispatch one inbound MTTS
subnegotiation payload. -/
def MTTS_at_receive_subnegotiate (st : MTTSState) (caps : Capabilities)
    (data : List Nat) : MTTSState × MTTSEffects :=
  match data with
  | [] => (st, ⟨false, [], 0⟩)
  | b0 :: rest =>
    if b0 ≠ 0 then (st, ⟨false, [], 0⟩)
    else
      let payload := bytesToStr rest
      if payload = st.last_received then (st, ⟨true, [], 0⟩)
      else if st.number_requests = 1 then
        ({ st with number_requests := st.number_requests + 1 },
         ⟨false, [MTTS_handle_name caps payload], 1⟩)
      else if st.number_requests = 2 then
        ({ st with number_requests := st.number_requests + 1 },
         ⟨false,
          match MTTS_handle_ttype caps payload with
          | some d => [d]
          | none => [],
          1⟩)
      else if st.number_requests = 3 then
        (st,
         ⟨true,
          match MTTS_handle_standard caps payload with
          | some d => [d]
          | none => [],
          0⟩)
      else (st, ⟨false, [], 0⟩)

/-! ## MCCP3 ingest stage -/

/-- The connection fields the MCCP3 error handling touches. -/
structure MCCP3ConnState where
  mccp3_enabled : Bool
  has_decompress_in : Bool
  read_buffer : List Nat
deriving DecidableEq, Repr

/-- Outcome of `self._tn_decompress_in.decompress(data)`, which is
external zlib state: either it returns `out` bytes with the stream's
`unused_data` attribute, or it raises `zlib.error`. -/
inductive InflateOutcome where
  | ok (out : List Nat) (unused_data : List Nat)
  | error
deriving DecidableEq, Repr

/-- `MCCP3Option.at_decompress_end`: drop the inflate stream and clear
`mccp3_enabled`; it enqueues no outbound message. -/
def MCCP3_at_decompress_end (st : MCCP3ConnState) : MCCP3ConnState × List TelnetMsg :=
  ({ st with has_decompress_in := false, mccp3_enabled := false }, [])

/-- `MCCP3Option.at_decompress_error`: same teardown, then
`send_negotiate(WONT)`.  The source defines this method but never calls
it. -/
def MCCP3_at_decompress_error (st : MCCP3ConnState) : MCCP3ConnState × List TelnetMsg :=
  ({ st with has_decompress_in := false, mccp3_enabled := false },
   [.negotiate TelnetCode.WONT TelnetCode.MCCP3])

/-- The decompression stage at the top of
`TelnetConnection._tn_at_receive_raw_data` (lines 736-747), before the
parse loop: when `mccp3_enabled`, the chunk is inflated; non-empty
`unused_data` triggers `at_decompress_end` and the inflated bytes are
still appended; `zlib.error` triggers `at_decompress_end` and the chunk is
dropped.  Returns the updated state and the outbound messages enqueued. -/
def tn_receive_decompress_stage (st : MCCP3ConnState) (data : List Nat)
    (outcome : InflateOutcome) : MCCP3ConnState × List TelnetMsg :=
  if st.mccp3_enabled then
    match outcome with
    | .ok out unused =>
      if unused ≠ [] then
        let r := MCCP3_at_decompress_end st
        ({ r.1 with read_buffer := r.1.read_buffer ++ out }, r.2)
      else ({ st with read_buffer := st.read_buffer ++ out }, [])
    | .error => MCCP3_at_decompress_end st
  else ({ st with read_buffer := st.read_buffer ++ data }, [])

/-! ## GMCP -/

/-- One escaped byte of Python `repr(bytes)` with quote character `q`:
backslash, the quote, tab, LF and CR get two-character escapes; other
non-printable bytes become `\xNN` (lowercase hex); printable bytes pass
through. -/
def pyBytesReprEscape (q c : Nat) : List Nat :=
  if c = 92 then [92, 92]
  else if c = q then [92, c]
  else if c = 9 then [92, 116]
  else if c = 10 then [92, 110]
  else if c = 13 then [92, 114]
  else if c < 32 ∨ 126 < c then
    [92, 120,
     (if c / 16 < 10 then 48 + c / 16 else 87 + c / 16),
     (if c % 16 < 10 then 48 + c % 16 else 87 + c % 16)]
  else [c]

/-- Python `str(b)` for a bytes object `b`, i.e. its repr `b'...'`: single
quotes unless the content contains a single quote but no double quote. -/
def pyBytesRepr (b : List Nat) : List Nat :=
  let q : Nat := if 39 ∈ b ∧ ¬ 34 ∈ b then 34 else 39
  98 :: q :: b.foldr (fun c acc => pyBytesReprEscape q c ++ acc) [] ++ [q]

/-- `GMCPOption.send_gmcp`: the payload of the enqueued
`SubNegotiate(GMCP, payload)`.  `orjson.dumps(data)` is external; its
result is the `json` parameter (`none` models `data is None`).  The source
appends `f" {orjson.dumps(data)}".encode()`: the f-string interpolates the
*bytes object*, so Python renders its repr `b'...'` into the payload. -/
def GMCP_send_gmcp_payload (command : List Nat) (json : Option (List Nat)) : List Nat :=
  match json with
  | none => command
  | some j => command ++ [32] ++ pyBytesRepr j

/-- Modelled from the spec: the payload `send_gmcp(command, data)` is
specified to emit, namely the UTF-8 bytes of `command` followed, when data
is present, by a single space and the UTF-8 JSON encoding of the data. -/
def GMCP_send_gmcp_payload_spec (command : List Nat) (json : Option (List Nat)) :
    List Nat :=
  match json with
  | none => command
  | some j => command ++ [32] ++ j

/-! ## Writer task -/

/-- An item on `_tn_out_queue`: a typed Telnet message object, or a raw
pre-encoded byte run as enqueued by `send_text`. -/
inductive OutItem where
  | msg (m : TelnetMsg)
  | raw (b : List Nat)
deriving DecidableEq, Repr

/-- Python truthiness of a dequeued item: message objects define neither
`__bool__` nor `__len__` and are always truthy; a bytes run is truthy iff
non-empty. -/
def pyTruthyOutItem : OutItem → Bool
  | .msg _ => true
  | .raw b => decide (b ≠ [])

/-- The dequeue loop of `TelnetConnection._tn_run_writer` over a sequence
of queue items: `while data := await self._tn_out_queue.get():` processes
items while they are truthy and exits the task on the first falsy item.
Returns the items actually serialized and written. -/
def tn_run_writer : List OutItem → List OutItem
  | [] => []
  | item :: rest =>
    if pyTruthyOutItem item then item :: tn_run_writer rest else []

/-- `TelnetConnection.send_text`: CRLF-normalize, UTF-8 encode, and enqueue
as a raw byte run. -/
def send_text_item (text : String) : OutItem :=
  .raw (pyEncodeUtf8 (ensure_crlf text))

/-! ## Claim-side description for the subnegotiation decoding rule -/

/-- The result claimed for decoding a buffer `B` that starts `IAC SB`:
scan from index 2 of `B` for the first unescaped `IAC SE` (an `IAC`
followed by `SE` ends the frame at that position plus 2, an `IAC` followed
by `IAC` is skipped as an escaped payload byte, anything else advances by
one); return `(0, incomplete)` when no end is found or the framed length
is below 5, and otherwise `SubNegotiate(option = B[2], payload =
B[3 .. end-2])` with advance `end`, the payload kept raw. -/
def c6Result (B : List Nat) : Nat × Option TelnetMsg :=
  match scanSE_go (B.drop 2) 2 with
  | none => (0, none)
  | some e =>
    if e < 5 then (0, none)
    else (e, some (.subnegotiate (B[2]!) ((B.take (e - 2)).drop 3)))

/-! ## Codec lemmas -/

theorem scan_until_IAC_le (l : List Nat) : scan_until_IAC l ≤ l.length := by
  induction l with
  | nil => simp [scan_until_IAC]
  | cons c rest ih =>
    by_cases h : c = 255
    · simp [scan_until_IAC, h]
    · simp [scan_until_IAC, h]
      omega

theorem scan_until_IAC_no_iac (l : List Nat) (h : ∀ x ∈ l, x ≠ 255) :
    scan_until_IAC l = l.length := by
  induction l with
  | nil => simp [scan_until_IAC]
  | cons c rest ih =>
    have hc : c ≠ 255 := h c (by simp)
    have := ih (fun x hx => h x (by simp [hx]))
    simp [scan_until_IAC, hc, this]
    omega

theorem scanSE_go_bounds_aux (n : Nat) :
    ∀ (l : List Nat) (i k : Nat), l.length ≤ n → scanSE_go l i = some k →
      i + 2 ≤ k ∧ k ≤ i + l.length := by
  induction n with
  | zero =>
    intro l i k hl h
    match l with
    | [] => simp [scanSE_go] at h
    | _ :: _ => simp at hl
  | succ n ih =>
    intro l i k hl h
    match l with
    | [] => simp [scanSE_go] at h
    | [_] => simp [scanSE_go] at h
    | a :: b :: rest =>
      simp only [scanSE_go] at h
      simp only [List.length_cons] at hl
      split_ifs at h with ha hb hb2
      · -- found IAC SE at i
        have : i + 2 = k := by simpa using h
        simp only [List.length_cons]
        omega
      · -- escaped IAC IAC: skip two
        have := ih rest (i + 2) k (by omega) h
        simp only [List.length_cons]
        omega
      · -- IAC followed by something else: advance one
        have := ih (b :: rest) (i + 1) k (by simp; omega) h
        simp only [List.length_cons] at this ⊢
        omega
      · -- non-IAC byte: advance one
        have := ih (b :: rest) (i + 1) k (by simp; omega) h
        simp only [List.length_cons] at this ⊢
        omega

theorem scanSE_go_bounds (l : List Nat) (i k : Nat) (h : scanSE_go l i = some k) :
    i + 2 ≤ k ∧ k ≤ i + l.length :=
  scanSE_go_bounds_aux l.length l i k le_rfl h

theorem parse_telnet_progress (B : List Nat) :
    (parse_telnet B).1 ≤ B.length ∧
    ((parse_telnet B).2 = none ↔ (parse_telnet B).1 = 0) ∧
    ((parse_telnet B).2 ≠ none → 1 ≤ (parse_telnet B).1) := by
  match B with
  | [] => simp [parse_telnet]
  | b0 :: rest =>
    by_cases h0 : b0 = 255
    · match rest with
      | [] => simp [parse_telnet, h0]
      | b1 :: rest2 =>
        by_cases h1 : b1 = 255
        · simp [parse_telnet, h0, h1]
        · by_cases h2 : b1 = 251 ∨ b1 = 252 ∨ b1 = 253 ∨ b1 = 254
          · match rest2 with
            | [] => simp [parse_telnet, h0, h1, h2]
            | b2 :: rest3 => simp [parse_telnet, h0, h1, h2]
          · by_cases h3 : b1 = 250
            · subst h0; subst h3
              cases hs : scan_until_IAC_SE (255 :: 250 :: rest2) with
              | none => simp [parse_telnet, hs]
              | some k =>
                have hb := scanSE_go_bounds _ 0 k hs
                by_cases h5 : k < 5
                · simp [parse_telnet, hs, h5]
                · simp only [List.length_cons] at hb
                  simp [parse_telnet, hs, h5]
                  omega
            · simp [parse_telnet, h0, h1, h2, h3]
    · have hle := scan_until_IAC_le (b0 :: rest)
      have hpos : 1 ≤ scan_until_IAC (b0 :: rest) := by
        simp [scan_until_IAC, h0]
      simp only [List.length_cons] at hle
      simp [parse_telnet, h0]
      omega

theorem decodeAllFuel_nil (fuel : Nat) : decodeAllFuel fuel [] = [] := by
  cases fuel <;> simp [decodeAllFuel, parse_telnet]

/-! ## C9 -/

/-- **C9.** `parse_telnet` is total and makes progress: for every finite
byte sequence `B` the advance is at most `|B|`, the message is `none`
exactly when the advance is zero, and whenever a message is returned the
advance is at least 1 — so the ingest loop that repeatedly removes
`advance` bytes and re-parses strictly shrinks the buffer and terminates
on every finite buffer. -/
theorem c9_parse_telnet_progress (B : List Nat) :
    (parse_telnet B).1 ≤ B.length ∧
    ((parse_telnet B).2 = none ↔ (parse_telnet B).1 = 0) ∧
    ((parse_telnet B).2 ≠ none →
      1 ≤ (parse_telnet B).1 ∧ (B.drop (parse_telnet B).1).length < B.length) := by
  obtain ⟨h1, h2, h3⟩ := parse_telnet_progress B
  refine ⟨h1, h2, fun hm => ⟨h3 hm, ?_⟩⟩
  have := h3 hm
  simp only [List.length_drop]
  omega

/-- Closed witness for C9 at the one-byte buffer `[65]`. -/
theorem c9_witness :
    (parse_telnet [65]).1 ≤ 1 ∧ 1 ≤ (parse_telnet [65]).1 ∧
    (([65] : List Nat).drop (parse_telnet [65]).1).length < 1 := by
  have h := c9_parse_telnet_progress [65]
  exact ⟨by simpa using h.1, (h.2.2 (by decide)).1, by simpa using (h.2.2 (by decide)).2⟩

/-! ## C6 -/

theorem scanSE_shift (rest : List Nat) :
    scan_until_IAC_SE (255 :: 250 :: rest) = scanSE_go rest 2 := by
  match rest with
  | [] => simp [scan_until_IAC_SE, scanSE_go]
  | c :: r => simp [scan_until_IAC_SE, scanSE_go]

/-- **C6.** For every buffer starting `IAC SB`, the decoder scans for the
first unescaped `IAC SE` (skipping `IAC IAC` pairs) and returns
`(0, incomplete)` when no end is found or the framed length is below 5,
and otherwise `SubNegotiate(option = B[2], payload = B[3 .. end-2])` with
advance `end`, leaving interior `IAC IAC` pairs in the payload
uncollapsed — formalized as equality with the claim-side description
`c6Result`, whose scan starts at index 2. -/
theorem c6_subnegotiate_decode (rest : List Nat) :
    parse_telnet (255 :: 250 :: rest) = c6Result (255 :: 250 :: rest) := by
  have hshift := scanSE_shift rest
  simp only [parse_telnet, c6Result, List.drop_succ_cons, List.drop_zero]
  norm_num [hshift]

/-! ## C1 -/

/-- **C1 counterexample.** `TelnetData.__bytes__` emits its bytes verbatim
without doubling IAC: encoding `Data([255, 65])` and decoding yields a
`Command` message, not `Data([255, 65])`, so the claimed round-trip fails
for byte sequences containing IAC. -/
theorem c1_counterexample :
    decodeAll (telnetData_bytes [255, 65]) = [TelnetMsg.command 65] ∧
    decodeAll (telnetData_bytes [255, 65]) ≠ [TelnetMsg.data [255, 65]] := by
  decide

/-- **C1 (amended).** For every non-empty byte sequence `b` containing no
IAC (0xFF) byte, encoding `Data(b)` and running the decoder repeatedly
with advance-consumption reproduces exactly `Data(b)`.  (The encoder does
not double IAC bytes, so the restriction to IAC-free `b` is necessary, as
the counterexample shows.) -/
theorem c1_roundtrip_no_iac (b : List Nat) (hne : b ≠ [])
    (hiac : ∀ x ∈ b, x ≠ 255) : decodeAll (telnetData_bytes b) = [TelnetMsg.data b] := by
  match b, hne with
  | b0 :: rest, _ =>
    have h0 : b0 ≠ 255 := hiac b0 (by simp)
    have hscan : scan_until_IAC (b0 :: rest) = (b0 :: rest).length :=
      scan_until_IAC_no_iac _ hiac
    have hparse : parse_telnet (b0 :: rest) =
        ((b0 :: rest).length, some (.data (b0 :: rest))) := by
      simp [parse_telnet, h0, hscan]
    show decodeAllFuel (b0 :: rest).length (b0 :: rest) = _
    rw [show (b0 :: rest).length = rest.length + 1 from rfl]
    simp only [decodeAllFuel]
    rw [hparse]
    simp [List.drop_length, decodeAllFuel_nil]

/-- Closed witness for the amended C1 at `b = [104, 105]`. -/
theorem c1_witness : decodeAll (telnetData_bytes [104, 105]) = [TelnetMsg.data [104, 105]] :=
  c1_roundtrip_no_iac [104, 105] (by decide) (by decide)

/-! ## C8 -/

theorem ensure_crlf_go_eq_claim (l : List Char) :
    ensure_crlf_go false l = claimNormalize l ∧
    Char.ofNat 13 :: ensure_crlf_go true l = claimNormalizeCR l := by
  induction l with
  | nil => exact ⟨rfl, rfl⟩
  | cons c rest ih =>
    obtain ⟨ih1, ih2⟩ := ih
    by_cases h13 : c = Char.ofNat 13
    · subst h13
      exact ⟨by simp [ensure_crlf_go, claimNormalize, ih2],
             by simp [ensure_crlf_go, claimNormalizeCR, ih2]⟩
    · by_cases h10 : c = Char.ofNat 10
      · subst h10
        exact ⟨by simp [ensure_crlf_go, claimNormalize, h13, ih1],
               by simp [ensure_crlf_go, claimNormalizeCR, h13, ih1]⟩
      · by_cases hia : c = iacChar
        · subst hia
          exact ⟨by simp [ensure_crlf_go, claimNormalize, h13, h10, ih1],
                 by simp [ensure_crlf_go, claimNormalizeCR, h13, h10, ih1]⟩
        · exact ⟨by simp [ensure_crlf_go, claimNormalize, h13, h10, hia, ih1],
                 by simp [ensure_crlf_go, claimNormalizeCR, h13, h10, hia, ih1]⟩

theorem okOutAux_ensure_crlf (l : List Char) :
    (∀ p, p ≠ some (Char.ofNat 13) → okOutAux p (ensure_crlf_go false l) = true) ∧
    okOutAux (some (Char.ofNat 13)) (ensure_crlf_go true l) = true := by
  induction l with
  | nil => exact ⟨fun p _ => rfl, rfl⟩
  | cons c rest ih =>
    obtain ⟨ih1, ih2⟩ := ih
    by_cases h13 : c = Char.ofNat 13
    · subst h13
      refine ⟨fun p hp => ?_, ?_⟩
      · simp [ensure_crlf_go, okOutAux, bne_iff_ne, hp, ih2]
      · simp [ensure_crlf_go, ih2]
    · by_cases h10 : c = Char.ofNat 10
      · subst h10
        refine ⟨fun p hp => ?_, ?_⟩
        · simp [ensure_crlf_go, okOutAux, bne_iff_ne, hp, h13,
                ih1 (some (Char.ofNat 10)) (by decide)]
        · simp [ensure_crlf_go, okOutAux, h13,
                ih1 (some (Char.ofNat 10)) (by decide)]
      · by_cases hia : c = iacChar
        · subst hia
          refine ⟨fun p hp => ?_, ?_⟩
          · simp [ensure_crlf_go, okOutAux, h13, h10, ih1 (some iacChar) (by decide)]
          · simp [ensure_crlf_go, okOutAux, h13, h10, ih1 (some iacChar) (by decide)]
        · have hc : (some c : Option Char) ≠ some (Char.ofNat 13) := by
            simp [h13]
          refine ⟨fun p hp => ?_, ?_⟩
          · simp [ensure_crlf_go, okOutAux, bne_iff_ne, h13, h10, hia, hp, ih1 (some c) hc]
          · simp [ensure_crlf_go, okOutAux, bne_iff_ne, h13, h10, hia, ih1 (some c) hc]

/-- **C8.** `ensure_crlf` (used by `send_text`) equals the claim-side
normalizer — every `\n` gets exactly one preceding `\r` (inserted when
absent, a duplicate suppressed), a lone `\r` not followed by `\n` is
preserved once with consecutive `\r` runs collapsed to one, every 0xFF
character is duplicated, and all other characters pass through verbatim in
order — and its output satisfies the positional property that each `\n` is
preceded by exactly one `\r`. -/
theorem c8_ensure_crlf (s : String) :
    ensure_crlf s = String.mk (claimNormalize s.data) ∧
    okOut (ensure_crlf s).data = true :=
  ⟨congrArg String.mk (ensure_crlf_go_eq_claim s.data).1,
   (okOutAux_ensure_crlf s.data).1 none (by decide)⟩

/-! ## C10 -/

/-- **C10.** `send_text("")` enqueues the empty byte run, which is falsy;
when the writer dequeues it, the `while data := await get():` loop
condition fails and the writer exits, so no item enqueued after it is ever
serialized or written: the items written from any queue containing the
empty run are exactly the items written from the part before it. -/
theorem c10_writer_stops (pre rest : List OutItem) :
    pyTruthyOutItem (send_text_item "") = false ∧
    tn_run_writer (pre ++ send_text_item "" :: rest) = tn_run_writer pre := by
  refine ⟨rfl, ?_⟩
  induction pre with
  | nil =>
    simp [tn_run_writer, show pyTruthyOutItem (send_text_item "") = false from rfl]
  | cons i pre ih =>
    by_cases h : pyTruthyOutItem i = true
    · simp [tn_run_writer, h, ih]
    · simp only [Bool.not_eq_true] at h
      simp [tn_run_writer, h]

/-! ## C7 -/

/-- **C7.** For every option, receiving `WILL` while `remote.enabled` is
already true (resp. `DO` while `local.enabled` is already true) changes no
half-state, sends no reply and fires no callback; and `at_remote_enable`
(resp. `at_local_enable`) fires exactly when the command is `WILL` (resp.
`DO`), the side is supported, and the half-state was false — i.e. exactly
once per false-to-true transition.  (An enabled half-state presupposes the
side is supported, since only the supported branch ever sets it.) -/
theorem c7_negotiate_once (support_local support_remote : Bool)
    (st : TelnetOptionPerspective) :
    (support_remote = true → st.remote.enabled = true →
      TelnetOption.at_receive_negotiate support_local support_remote st
        TelnetCode.WILL = (st, [], [])) ∧
    (support_local = true → st.local'.enabled = true →
      TelnetOption.at_receive_negotiate support_local support_remote st
        TelnetCode.DO = (st, [], [])) ∧
    (∀ command, OptionCallback.remote_enable ∈
        (TelnetOption.at_receive_negotiate support_local support_remote st command).2.2 ↔
      (command = TelnetCode.WILL ∧ support_remote = true ∧ st.remote.enabled = false)) ∧
    (∀ command, OptionCallback.local_enable ∈
        (TelnetOption.at_receive_negotiate support_local support_remote st command).2.2 ↔
      (command = TelnetCode.DO ∧ support_local = true ∧ st.local'.enabled = false)) := by
  obtain ⟨⟨le, ln⟩, ⟨re, rn⟩⟩ := st
  refine ⟨?_, ?_, ?_, ?_⟩
  · intro hsr hre
    simp only at hre
    subst hsr; subst hre
    simp [TelnetOption.at_receive_negotiate, TelnetCode.WILL, TelnetCode.DO,
      TelnetCode.WONT, TelnetCode.DONT]
  · intro hsl hle
    simp only at hle
    subst hsl; subst hle
    simp [TelnetOption.at_receive_negotiate, TelnetCode.WILL, TelnetCode.DO,
      TelnetCode.WONT, TelnetCode.DONT]
  · intro command
    by_cases h1 : command = TelnetCode.WILL
    · subst h1
      cases support_remote <;> cases re <;> cases rn <;>
        simp [TelnetOption.at_receive_negotiate, TelnetCode.WILL, TelnetCode.DO,
          TelnetCode.WONT, TelnetCode.DONT]
    · by_cases h2 : command = TelnetCode.DO
      · subst h2
        cases support_local <;> cases le <;> cases ln <;>
          simp [TelnetOption.at_receive_negotiate, TelnetCode.WILL, TelnetCode.DO,
            TelnetCode.WONT, TelnetCode.DONT, h1]
      · by_cases h3 : command = TelnetCode.WONT
        · subst h3
          cases support_remote <;> cases re <;> cases rn <;>
            simp [TelnetOption.at_receive_negotiate, TelnetCode.WILL, TelnetCode.DO,
              TelnetCode.WONT, TelnetCode.DONT, h1]
        · by_cases h4 : command = TelnetCode.DONT
          · subst h4
            cases support_local <;> cases le <;> cases ln <;>
              simp [TelnetOption.at_receive_negotiate, TelnetCode.WILL, TelnetCode.DO,
                TelnetCode.WONT, TelnetCode.DONT, h1]
          · simp [TelnetOption.at_receive_negotiate, h1, h2, h3, h4]
  · intro command
    by_cases h1 : command = TelnetCode.WILL
    · subst h1
      cases support_remote <;> cases re <;> cases rn <;>
        simp [TelnetOption.at_receive_negotiate, TelnetCode.WILL, TelnetCode.DO,
          TelnetCode.WONT, TelnetCode.DONT]
    · by_cases h2 : command = TelnetCode.DO
      · subst h2
        cases support_local <;> cases le <;> cases ln <;>
          simp [TelnetOption.at_receive_negotiate, TelnetCode.WILL, TelnetCode.DO,
            TelnetCode.WONT, TelnetCode.DONT]
      · by_cases h3 : command = TelnetCode.WONT
        · subst h3
          cases support_remote <;> cases re <;> cases rn <;>
            simp [TelnetOption.at_receive_negotiate, TelnetCode.WILL, TelnetCode.DO,
              TelnetCode.WONT, TelnetCode.DONT, h2]
        · by_cases h4 : command = TelnetCode.DONT
          · subst h4
            cases support_local <;> cases le <;> cases ln <;>
              simp [TelnetOption.at_receive_negotiate, TelnetCode.WILL, TelnetCode.DO,
                TelnetCode.WONT, TelnetCode.DONT, h2]
          · simp [TelnetOption.at_receive_negotiate, h1, h2, h3, h4]

/-- Closed witness for C7: a supported, already-enabled remote half-state
receiving `WILL` is a complete no-op, and the enable callback does not
fire. -/
theorem c7_witness :
    TelnetOption.at_receive_negotiate true true
      { local' := {}, remote := { enabled := true, negotiating := false } }
      TelnetCode.WILL =
      ({ local' := {}, remote := { enabled := true, negotiating := false } }, [], []) ∧
    ¬ OptionCallback.remote_enable ∈
      (TelnetOption.at_receive_negotiate true true
        { local' := {}, remote := { enabled := true, negotiating := false } }
        TelnetCode.WILL).2.2 := by
  have h := c7_negotiate_once true true
    { local' := {}, remote := { enabled := true, negotiating := false } }
  refine ⟨h.1 rfl rfl, ?_⟩
  intro hmem
  have := (h.2.2.1 TelnetCode.WILL).mp hmem
  simp at this

/-! ## C5 -/

/-- **C5 (code bug).** In `handle_ttype` the final guard compares the
computed color against the whole capability record instead of
`capabilities.color`, so it is always true: on terminal type `"ANSI"` with
current color `STANDARD` the computed color equals the current one, yet
the delta passed to `change_capabilities` still contains `"color"` —
contradicting the claim that `color` is only written when the computed
value differs. -/
theorem c5_handle_ttype_always_writes_color :
    ({ color := .standard } : Capabilities).color = ColorType.standard ∧
    MTTS_handle_ttype { color := .standard } "ANSI" =
      some [("color", CapValue.color ColorType.standard)] := by
  exact ⟨rfl, by decide⟩

/-! ## C2 -/

/-- **C2 (code bug).** `last_received` is initialized to `""` and never
assigned again, so the settled check `payload == self.last_received` can
only ever match the empty payload.  Receiving the payload `"XTERM"` at
step 1 leaves `last_received` unchanged (state becomes `⟨2, ""⟩`), and
receiving the identical payload `"XTERM"` again at step 2 does *not*
settle: the option dispatches `handle_ttype`, changes capabilities, and
sends a further MTTS request — contradicting the claim for every current
capability record. -/
theorem c2_duplicate_payload_not_settled (caps caps' : Capabilities) :
    (MTTS_at_receive_subnegotiate ⟨1, ""⟩ caps (0 :: strToBytes "XTERM")).1 =
      ⟨2, ""⟩ ∧
    (MTTS_at_receive_subnegotiate ⟨2, ""⟩ caps' (0 :: strToBytes "XTERM")).2.settled =
      false ∧
    (MTTS_at_receive_subnegotiate ⟨2, ""⟩ caps' (0 :: strToBytes "XTERM")).2.requests =
      1 ∧
    (MTTS_at_receive_subnegotiate ⟨2, ""⟩ caps' (0 :: strToBytes "XTERM")).2.deltas ≠
      [] := by
  refine ⟨rfl, rfl, rfl, ?_⟩
  obtain ⟨col, a1, a2, a3, a4, a5⟩ := caps'
  cases col <;> exact List.cons_ne_nil _ _

/-! ## C3 -/

/-- **C3 (code bug).** `send_gmcp` builds the appendix with
`f" {orjson.dumps(data)}"`, interpolating the *bytes object* returned by
`orjson.dumps`, so the payload contains Python's bytes repr `b'...'`
rather than the JSON text: for command `"Core.Hello"` and JSON bytes
`"123"` the payload is `"Core.Hello b'123'"` (39 is the quote character),
not the claimed `"Core.Hello 123"`.  When data is absent the payload is
the bare command, as claimed. -/
theorem c3_gmcp_payload_is_bytes_repr :
    GMCP_send_gmcp_payload (strToBytes "Core.Hello") (some (strToBytes "123")) =
      strToBytes "Core.Hello b" ++ [39] ++ strToBytes "123" ++ [39] ∧
    GMCP_send_gmcp_payload (strToBytes "Core.Hello") (some (strToBytes "123")) ≠
      GMCP_send_gmcp_payload_spec (strToBytes "Core.Hello") (some (strToBytes "123")) ∧
    (∀ command : List Nat, GMCP_send_gmcp_payload command none = command) := by
  exact ⟨by decide, by decide, fun _ => rfl⟩

/-! ## C4 -/

/-- **C4 counterexample.** On an inflate error during ingest the
connection calls `at_decompress_end`, which clears `mccp3_enabled` and
drops the inflate stream but enqueues *no* message: at a concrete
compressing state the emitted message list is empty, so no
`Negotiate(WONT, MCCP3)` is sent, contrary to the claim.  (The
WONT-sending `at_decompress_error` exists in the source but is never
invoked.) -/
theorem c4_counterexample :
    tn_receive_decompress_stage ⟨true, true, []⟩ [1, 2, 3] .error =
      (⟨false, false, []⟩, []) ∧
    ¬ TelnetMsg.negotiate TelnetCode.WONT TelnetCode.MCCP3 ∈
        (tn_receive_decompress_stage ⟨true, true, []⟩ [1, 2, 3] .error).2 := by
  decide

/-- **C4 (amended).** Whenever the inbound inflate stream ends mid-stream
(non-empty `unused_data`) or raises a decompression error during ingest,
the connection sets `mccp3_enabled` to false and drops the inflate stream,
but sends nothing — in particular no `Negotiate(WONT, MCCP3)` — and then
continues in plain mode. -/
theorem c4_mccp3_teardown (st : MCCP3ConnState) (data : List Nat)
    (outcome : InflateOutcome) (h : st.mccp3_enabled = true)
    (hcase : outcome = .error ∨
      ∃ out unused, outcome = .ok out unused ∧ unused ≠ []) :
    (tn_receive_decompress_stage st data outcome).1.mccp3_enabled = false ∧
    (tn_receive_decompress_stage st data outcome).1.has_decompress_in = false ∧
    (tn_receive_decompress_stage st data outcome).2 = [] := by
  rcases hcase with hc | ⟨out, unused, hc, hu⟩
  · subst hc
    simp [tn_receive_decompress_stage, MCCP3_at_decompress_end, h]
  · subst hc
    simp [tn_receive_decompress_stage, MCCP3_at_decompress_end, h, hu]

/-- Closed witness for the amended C4: inflate output with trailing unused
data tears compression down without sending anything. -/
theorem c4_witness :
    (tn_receive_decompress_stage ⟨true, true, [7]⟩ [9]
      (.ok [5] [6])).1.mccp3_enabled = false ∧
    (tn_receive_decompress_stage ⟨true, true, [7]⟩ [9]
      (.ok [5] [6])).1.has_decompress_in = false ∧
    (tn_receive_decompress_stage ⟨true, true, [7]⟩ [9] (.ok [5] [6])).2 = [] :=
  c4_mccp3_teardown _ _ _ rfl (Or.inr ⟨[5], [6], rfl, by decide⟩)

end Mudpy
